import Mathlib

/-!
Verification of the session and rendering logic of a vanilla-JS blog
front end (admin panel plus public blog).  JavaScript strings are
modelled as lists of characters, `localStorage` as an `Option` cell, the
event-loop timer set as an explicit list of armed handles, and every
`fetch` exchange as an explicit outcome value (network error, or a
status code together with the parse result of the body).  Machine
numbers (`Date.now()`, JWT `exp` claims, timer delays) are modelled as
`Nat`/`Int`.
-/

set_option maxRecDepth 4000

/-- JavaScript strings, modelled as lists of characters. -/
abbrev JStr := List Char

/-- Coerce a Lean string literal to the JavaScript string model. -/
def jstr (s : String) : JStr := s.data

/-- Characters matched by the JavaScript regexp class `\s` (ASCII part)
and removed by `String.prototype.trim`. -/
def jsWs (c : Char) : Bool :=
  c == ' ' || c == '\t' || c == '\n' || c == '\r' || c == '\x0b' || c == '\x0c'

/-- The backtick character. -/
def tickChar : Char := (jstr "\x60").headD ' '

-- ===== Session manager: JWT decoding and expiry (admin/admin.js) =====

/-- Decoded JWT payload: only the `exp` claim (seconds since epoch) is
ever read by the client.  `none` models a payload object without an
`exp` field (or with a falsy one of another kind). -/
structure JWTPayload where
  exp : Option Int
deriving Repr, DecidableEq

/-- Embedding of `decodeJWT` (admin.js 128-152): split the token on
dots, require exactly three segments, then base64url-decode and
JSON-parse the middle segment.  The base64/JSON step is the library
composite `decodeURIComponent (atob ...)` plus `JSON.parse`; it is kept
abstract as the `parse` argument (returning `none` models any throw,
which the surrounding try/catch turns into `null`). -/
def splitOnDot : JStr → List JStr
  | [] => [[]]
  | c :: rest =>
    if c = '.' then [] :: splitOnDot rest
    else
      match splitOnDot rest with
      | [] => [[c]]
      | p :: ps => (c :: p) :: ps

/-- Embedding of `decodeJWT` (admin.js 128-152); see `splitOnDot`. -/
def decodeJWT (parse : JStr → Option JWTPayload) (token : JStr) : Option JWTPayload :=
  let parts := splitOnDot token
  if parts.length = 3 then parse (parts.getD 1 []) else none

/-- Embedding of `isTokenExpired` (admin.js 158-171).  The JavaScript
guard `!payload || !payload.exp` treats a missing payload, a missing
`exp` field and a zero `exp` (falsy number) alike, returning `true`
("treat as expired"); otherwise it compares `Date.now()` against
`exp * 1000`. -/
def isTokenExpired (parse : JStr → Option JWTPayload) (token : JStr) (now : Nat) : Bool :=
  match decodeJWT parse token with
  | none => true
  | some payload =>
    match payload.exp with
    | none => true
    | some e => if e = 0 then true else decide ((now : Int) ≥ e * 1000)

/-- Embedding of `getTokenRemainingTime` (admin.js 176-188): `0` under
the same falsy-`exp` guard, otherwise `Math.max(0, exp*1000 - now)`. -/
def getTokenRemainingTime (parse : JStr → Option JWTPayload) (token : JStr) (now : Nat) : Int :=
  match decodeJWT parse token with
  | none => 0
  | some payload =>
    match payload.exp with
    | none => 0
    | some e => if e = 0 then 0 else max 0 (e * 1000 - (now : Int))

-- ===== Theorems for claims C5 and C10 =====

/-- C5: for every token whose payload decodes to a JSON object carrying
an expiry claim `exp`, `isTokenExpired token` returns `true` exactly
when the current time in milliseconds satisfies `now_ms ≥ exp * 1000`.
(The code short-circuits a zero `exp` through its falsy-value guard, but
`now_ms ≥ 0` always holds, so the equivalence is unbroken.) -/
theorem c5_isTokenExpired_iff
    (parse : JStr → Option JWTPayload) (token : JStr) (now : Nat) (e : Int)
    (h : decodeJWT parse token = some ⟨some e⟩) :
    isTokenExpired parse token now = true ↔ (now : Int) ≥ e * 1000 := by
  unfold isTokenExpired
  rw [h]
  by_cases he : e = 0
  · subst he
    simp only [if_pos rfl]
    constructor
    · intro _
      omega
    · intro _; rfl
  · simp only [if_neg he, decide_eq_true_eq]

/-- Concrete instantiation of `c5_isTokenExpired_iff`. -/
theorem c5_isTokenExpired_iff_witness :
    isTokenExpired (fun _ => some ⟨some 10⟩) (jstr "a.b.c") 20000 = true ↔
      ((20000 : Nat) : Int) ≥ 10 * 1000 :=
  c5_isTokenExpired_iff (fun _ => some ⟨some 10⟩) (jstr "a.b.c") 20000 10 (by decide)

/-- C10: at any fixed current time, `isTokenExpired` returns `true`
exactly when `getTokenRemainingTime` returns `0`, for every token —
including tokens with no decodable payload or no usable `exp` claim
(both functions route those through the same falsy-`exp` guard). -/
theorem c10_expired_iff_zero_remaining
    (parse : JStr → Option JWTPayload) (token : JStr) (now : Nat) :
    isTokenExpired parse token now = true ↔
      getTokenRemainingTime parse token now = 0 := by
  unfold isTokenExpired getTokenRemainingTime
  cases hdec : decodeJWT parse token with
  | none => simp
  | some payload =>
    cases hexp : payload.exp with
    | none => simp [hexp]
    | some e =>
      simp only [hexp]
      by_cases he : e = 0
      · subst he; simp
      · simp only [if_neg he, decide_eq_true_eq, max_eq_left_iff]
        omega

-- ===== Session state (localStorage, timers, navigation) =====

/-- Browser-session state visible to the admin scripts: the
`blog_cms_token` cell of `localStorage` (`none` = key absent), the
current time, the set of live timers `(handle, delay)` armed through
`setTimeout`, the module-level `autoLogoutTimer` variable, a fresh
handle counter, and the observable effects (alert messages and
navigations) in order of occurrence, plus `window.location.pathname`. -/
structure SessState where
  storage : Option JStr
  now : Nat
  pending : List (Nat × Nat)
  tracked : Option Nat
  nextHandle : Nat
  alerts : List JStr
  redirects : List JStr
  pathname : JStr
deriving Repr, DecidableEq

/-- Embedding of `getToken` (admin.js 11-13). -/
def getToken (s : SessState) : Option JStr := s.storage

/-- Embedding of `removeToken` (admin.js 25-27). -/
def removeToken (s : SessState) : SessState := { s with storage := none }

/-- JavaScript truthiness of `localStorage.getItem(...)`: `null` and the
empty string are falsy, every other string is truthy. -/
def tokenTruthy : Option JStr → Bool
  | none => false
  | some t => !t.isEmpty

/-- Embedding of `isAuthenticated` (admin.js 32-34): `!!getToken()`. -/
def isAuthenticated (s : SessState) : Bool := tokenTruthy (getToken s)

/-- The guard `!token || token === 'undefined' || token === 'null'` used
by `verifyTokenWithBackend` (admin.js 43), `protectRoute` (admin.js 99)
and `checkTokenExpiry` (admin.js 230). -/
def tokenMissingCheck : Option JStr → Bool
  | none => true
  | some t => t.isEmpty || t == jstr "undefined" || t == jstr "null"

/-- Embedding of the already-logged-in check of the login page
(login.js 25): `if (localStorage.getItem('blog_cms_token'))` — redirect
to the dashboard when the raw stored value is truthy. -/
def loginPageTokenCheck (s : SessState) : Bool := tokenTruthy s.storage

/-- Embedding of the Authorization-header attachment of `apiRequest`
(admin.js 335-337): `if (token) headers['Authorization'] = 'Bearer ' + token`. -/
def authHeader (s : SessState) : Option JStr :=
  match getToken s with
  | none => none
  | some t => if t.isEmpty then none else some (jstr "Bearer " ++ t)

-- ===== Theorems for claim C1 =====

/-- C1 counterexample: with the literal string "null" stored as the
token, `isAuthenticated` returns `true`, the login page redirects to the
dashboard, and an `Authorization: Bearer null` header is attached — the
claim asserts all three treat the token as absent. -/
theorem c1_literal_token_counterexample :
    isAuthenticated
        ⟨some (jstr "null"), 0, [], none, 0, [], [], jstr "/admin/login.html"⟩ = true ∧
    loginPageTokenCheck
        ⟨some (jstr "null"), 0, [], none, 0, [], [], jstr "/admin/login.html"⟩ = true ∧
    authHeader
        ⟨some (jstr "null"), 0, [], none, 0, [], [], jstr "/admin/login.html"⟩ =
      some (jstr "Bearer null") := by
  refine ⟨by decide, by decide, by decide⟩

/-- C1 amended: an absent or empty-string token is treated as absent by
`isAuthenticated`, by the login page's already-logged-in check and by
the Authorization-header attachment; the literal strings "null" and
"undefined" are treated as absent only by the `tokenMissingCheck` guard
(used by `verifyTokenWithBackend`, `protectRoute` and
`checkTokenExpiry`), while `isAuthenticated` returns `true` for them,
the login page does redirect, and a Bearer header is attached. -/
theorem c1_empty_and_literal_token_handling (s : SessState) :
    (s.storage = none ∨ s.storage = some [] →
      isAuthenticated s = false ∧ loginPageTokenCheck s = false ∧
      authHeader s = none ∧ tokenMissingCheck s.storage = true) ∧
    (∀ t, s.storage = some t → (t = jstr "null" ∨ t = jstr "undefined") →
      tokenMissingCheck s.storage = true ∧
      isAuthenticated s = true ∧ loginPageTokenCheck s = true ∧
      authHeader s = some (jstr "Bearer " ++ t)) := by
  constructor
  · rintro (h | h) <;>
      simp [isAuthenticated, loginPageTokenCheck, authHeader, tokenMissingCheck,
        tokenTruthy, getToken, h]
  · rintro t hs (ht | ht) <;> subst ht <;>
      simp [isAuthenticated, loginPageTokenCheck, authHeader, tokenMissingCheck,
        tokenTruthy, getToken, hs, jstr]

/-- Concrete instantiation of `c1_empty_and_literal_token_handling` for
both the empty-string case and the "null"-literal case. -/
theorem c1_empty_and_literal_token_handling_witness :
    (isAuthenticated ⟨some [], 0, [], none, 0, [], [], jstr "x"⟩ = false ∧
     loginPageTokenCheck ⟨some [], 0, [], none, 0, [], [], jstr "x"⟩ = false ∧
     authHeader ⟨some [], 0, [], none, 0, [], [], jstr "x"⟩ = none ∧
     tokenMissingCheck (some ([] : JStr)) = true) ∧
    (tokenMissingCheck (some (jstr "null")) = true ∧
     isAuthenticated ⟨some (jstr "null"), 0, [], none, 0, [], [], jstr "x"⟩ = true ∧
     loginPageTokenCheck ⟨some (jstr "null"), 0, [], none, 0, [], [], jstr "x"⟩ = true ∧
     authHeader ⟨some (jstr "null"), 0, [], none, 0, [], [], jstr "x"⟩ =
       some (jstr "Bearer " ++ jstr "null")) :=
  ⟨(c1_empty_and_literal_token_handling
      ⟨some [], 0, [], none, 0, [], [], jstr "x"⟩).1 (Or.inr rfl),
   (c1_empty_and_literal_token_handling
      ⟨some (jstr "null"), 0, [], none, 0, [], [], jstr "x"⟩).2
      (jstr "null") rfl (Or.inl rfl)⟩

-- ===== API client (admin/admin.js apiRequest, verifyTokenWithBackend) =====

/-- Prefix test on the character-list model of strings. -/
def startsWithL : JStr → JStr → Bool
  | _, [] => true
  | [], _ :: _ => false
  | c :: cs, d :: ds => c == d && startsWithL cs ds

/-- Embedding of `String.prototype.includes`: substring containment. -/
def containsSub (needle : JStr) : JStr → Bool
  | [] => startsWithL [] needle
  | c :: rest => startsWithL (c :: rest) needle || containsSub needle rest

/-- Whether a `fetch` response has `response.ok` (status 200-299). -/
def responseOk (status : Nat) : Bool := 200 ≤ status && status ≤ 299

/-- Parsed JSON body of an API response as read by `apiRequest`: the
payload handed back to the caller, plus the optional `message` field
consulted on non-ok statuses. -/
structure ApiBody (α : Type) where
  payload : α
  message : Option JStr
deriving Repr, DecidableEq

/-- Outcome of one `fetch` exchange: a network-level failure (the
promise rejects before any response), or a response with a status code
and the result of `response.json()` (`Except.error` models a JSON parse
throw), with `β` the parsed-body type. -/
inductive FetchOutcome (β : Type) where
  | netError (msg : JStr)
  | response (status : Nat) (parsed : Except JStr β)
deriving Repr

/-- Embedding of `apiRequest` (admin.js 328-373).  On status 401: remove
the token, navigate to the login page unless `location.pathname` already
contains `login.html`, and return `null` (`Except.ok none`).  Otherwise
parse the body; a parse throw propagates (`Except.error`).  On a non-ok
status throw `data.message || 'Something went wrong'`; on success return
the parsed body.  A network failure is re-thrown by the catch block. -/
def apiRequest {α : Type} (s : SessState) (outcome : FetchOutcome (ApiBody α)) :
    SessState × Except JStr (Option α) :=
  match outcome with
  | .netError m => (s, .error m)
  | .response status parsed =>
    if status = 401 then
      let s1 := removeToken s
      let s2 :=
        if containsSub (jstr "login.html") s1.pathname then s1
        else { s1 with redirects := s1.redirects ++ [jstr "login.html"] }
      (s2, .ok none)
    else
      match parsed with
      | .error m => (s, .error m)
      | .ok body =>
        if responseOk status then (s, .ok (some body.payload))
        else (s, .error (body.message.getD (jstr "Something went wrong")))

/-- Parsed JSON body of the `/api/auth/me` response as read by
`verifyTokenWithBackend`: the truthiness of `data.success`, and
`data.data` (the user object, `none` when absent or falsy). -/
structure MeBody where
  success : Bool
  userData : Option JStr
deriving Repr, DecidableEq

/-- Embedding of `verifyTokenWithBackend` (admin.js 40-89).  A missing
token (or the "null"/"undefined" literals) short-circuits to `null`
before any fetch.  Status 401 and every other non-ok status clear the
token and yield `null`; the ok path yields the user data when
`data.success && data.data`, else clears the token; the catch block
(network failure, or a `response.json()` throw) yields `null` WITHOUT
clearing the token. -/
def verifyTokenWithBackend (s : SessState) (outcome : FetchOutcome MeBody) :
    SessState × Option JStr :=
  if tokenMissingCheck (getToken s) then (s, none)
  else
    match outcome with
    | .netError _ => (s, none)
    | .response status parsed =>
      if status = 401 then (removeToken s, none)
      else if !responseOk status then (removeToken s, none)
      else
        match parsed with
        | .error _ => (s, none)
        | .ok body =>
          if body.success && body.userData.isSome then (s, body.userData)
          else (removeToken s, none)

/-- Sample authenticated state sitting on the dashboard page. -/
def dashState : SessState :=
  ⟨some (jstr "tok"), 0, [], none, 0, [], [], jstr "/admin/dashboard.html"⟩

-- ===== Theorems for claims C2 and C6 =====

/-- C2: every call through `apiRequest` that receives status 401 removes
the stored token, redirects to the login page exactly once unless
`location.pathname` already contains `login.html` (in which case no
redirect is issued, so no loop), and returns `null` (`Except.ok none`)
to the caller instead of throwing. -/
theorem c2_apiRequest_401_behavior {α : Type} (s : SessState)
    (parsed : Except JStr (ApiBody α)) (_hauth : isAuthenticated s = true) :
    (apiRequest s (.response 401 parsed)).fst.storage = none ∧
    (apiRequest s (.response 401 parsed)).snd = Except.ok none ∧
    (containsSub (jstr "login.html") s.pathname = true →
      (apiRequest s (.response 401 parsed)).fst.redirects = s.redirects) ∧
    (containsSub (jstr "login.html") s.pathname = false →
      (apiRequest s (.response 401 parsed)).fst.redirects =
        s.redirects ++ [jstr "login.html"]) := by
  unfold apiRequest
  by_cases hp : containsSub (jstr "login.html") s.pathname
  · simp [hp, removeToken]
  · simp [hp, removeToken]

/-- Concrete instantiation of `c2_apiRequest_401_behavior` on the
dashboard page (not the login page), where the one redirect fires. -/
theorem c2_apiRequest_401_behavior_witness :
    (apiRequest dashState
        (FetchOutcome.response 401 (Except.ok (⟨0, none⟩ : ApiBody Nat)))).fst.storage
      = none ∧
    (apiRequest dashState
        (FetchOutcome.response 401 (Except.ok (⟨0, none⟩ : ApiBody Nat)))).snd
      = Except.ok none ∧
    (apiRequest dashState
        (FetchOutcome.response 401 (Except.ok (⟨0, none⟩ : ApiBody Nat)))).fst.redirects
      = dashState.redirects ++ [jstr "login.html"] :=
  ⟨(c2_apiRequest_401_behavior dashState (Except.ok ⟨0, none⟩) (by decide)).1,
   (c2_apiRequest_401_behavior dashState (Except.ok ⟨0, none⟩) (by decide)).2.1,
   (c2_apiRequest_401_behavior dashState (Except.ok ⟨0, none⟩) (by decide)).2.2.2
     (by decide)⟩

/-- C6: with a token present, a completed exchange with status 401 — or
any other non-success status — clears the stored token and yields "not
verified" (`none`), while a network-level failure (exception before a
response) leaves the stored token in place and still yields `none`. -/
theorem c6_verifyTokenWithBackend_clearing (s : SessState)
    (hpresent : tokenMissingCheck (getToken s) = false) :
    (∀ parsed, (verifyTokenWithBackend s (.response 401 parsed)).fst.storage = none ∧
      (verifyTokenWithBackend s (.response 401 parsed)).snd = none) ∧
    (∀ status parsed, responseOk status = false →
      (verifyTokenWithBackend s (.response status parsed)).fst.storage = none ∧
      (verifyTokenWithBackend s (.response status parsed)).snd = none) ∧
    (∀ m, (verifyTokenWithBackend s (.netError m)).fst = s ∧
      (verifyTokenWithBackend s (.netError m)).snd = none) := by
  refine ⟨fun parsed => ?_, fun status parsed hstatus => ?_, fun m => ?_⟩
  · simp [verifyTokenWithBackend, hpresent, removeToken]
  · by_cases h401 : status = 401
    · subst h401; simp [verifyTokenWithBackend, hpresent, removeToken]
    · simp [verifyTokenWithBackend, hpresent, h401, hstatus, removeToken]
  · simp [verifyTokenWithBackend, hpresent]

/-- Concrete instantiation of `c6_verifyTokenWithBackend_clearing`: a
500 response clears the token; a network error does not. -/
theorem c6_verifyTokenWithBackend_clearing_witness :
    ((verifyTokenWithBackend dashState
        (FetchOutcome.response 500 (Except.error []))).fst.storage = none ∧
     (verifyTokenWithBackend dashState
        (FetchOutcome.response 500 (Except.error []))).snd = none) ∧
    ((verifyTokenWithBackend dashState
        (FetchOutcome.netError (jstr "down"))).fst = dashState ∧
     (verifyTokenWithBackend dashState
        (FetchOutcome.netError (jstr "down"))).snd = none) :=
  ⟨(c6_verifyTokenWithBackend_clearing dashState (by decide)).2.1 500
      (Except.error []) (by decide),
   (c6_verifyTokenWithBackend_clearing dashState (by decide)).2.2 (jstr "down")⟩

-- ===== Posts listing: response-shape handling (blog.js / admin.js) =====

/-- Shape of the backend body for the posts-listing endpoints: an object
with a `posts` field, an object with a `data` field, or the bare array
itself.  (A JavaScript array value has neither a `posts` nor a `data`
property, and an array — even an empty one — is truthy.) -/
inductive PostsBody (α : Type) where
  | postsEnvelope (posts : List α)
  | dataEnvelope (d : List α)
  | bare (posts : List α)
deriving Repr, DecidableEq

/-- Embedding of the public-listing extraction (blog.js 107):
`const posts = data.posts || data.data || []`. -/
def publicExtractPosts {α : Type} : PostsBody α → List α
  | .postsEnvelope p => p
  | .dataEnvelope d => d
  | .bare _ => []

/-- Embedding of the dashboard extraction (admin.js 464):
`const posts = data.posts || data`.  For a `data` envelope the whole
(non-array) object flows on and the subsequent `forEach` render throws,
modelled as `none`. -/
def dashboardExtractPosts {α : Type} : PostsBody α → Option (List α)
  | .postsEnvelope p => some p
  | .dataEnvelope _ => none
  | .bare p => some p

/-- Rendering outcome of the public listing page (blog.js 109-115):
empty state when `!posts || posts.length === 0`, otherwise the grid of
post cards in order. -/
inductive ListingRender (α : Type) where
  | emptyState
  | grid (posts : List α)
deriving Repr, DecidableEq

/-- Embedding of the public-listing render decision (blog.js 107-115). -/
def publicListingRender {α : Type} (body : PostsBody α) : ListingRender α :=
  let posts := publicExtractPosts body
  if posts.isEmpty then .emptyState else .grid posts

/-- Rendering outcome of the dashboard table (admin.js 463-480):
empty state, the table of rows in order, or the caught-error state. -/
inductive DashRender (α : Type) where
  | emptyState
  | table (posts : List α)
  | errorState
deriving Repr, DecidableEq

/-- Embedding of the dashboard render decision (admin.js 463-480). -/
def dashboardListingRender {α : Type} (body : PostsBody α) : DashRender α :=
  match dashboardExtractPosts body with
  | none => .errorState
  | some posts => if posts.isEmpty then .emptyState else .table posts

-- ===== Theorems for claim C7 =====

/-- C7 counterexample: a non-empty bare-array body renders the empty
state on the public listing page, while the `posts` envelope with the
same list renders the grid — the two shapes do not render identically
there. -/
theorem c7_bare_array_counterexample :
    publicListingRender (PostsBody.postsEnvelope [0]) ≠
      publicListingRender (PostsBody.bare ([0] : List Nat)) := by
  decide

/-- C7 amended: the dashboard listing renders identically for the
`posts` envelope and the bare array (for every list of posts), but the
public listing maps every bare array to the empty post list — so there
the two shapes render identically only when the list is empty.  The
public listing instead accepts the `posts` and `data` envelopes. -/
theorem c7_response_shape_handling {α : Type} (P : List α) :
    dashboardListingRender (PostsBody.postsEnvelope P) =
      dashboardListingRender (PostsBody.bare P) ∧
    publicListingRender (PostsBody.bare P) = ListingRender.emptyState ∧
    publicListingRender (PostsBody.dataEnvelope P) =
      publicListingRender (PostsBody.postsEnvelope P) ∧
    (P = [] →
      publicListingRender (PostsBody.postsEnvelope P) =
        publicListingRender (PostsBody.bare P)) := by
  refine ⟨rfl, rfl, rfl, fun hP => ?_⟩
  subst hP
  rfl

/-- Concrete instantiation of `c7_response_shape_handling`. -/
theorem c7_response_shape_handling_witness :
    dashboardListingRender (PostsBody.postsEnvelope [3, 7]) =
      dashboardListingRender (PostsBody.bare [3, 7]) ∧
    publicListingRender (PostsBody.postsEnvelope ([] : List Nat)) =
      publicListingRender (PostsBody.bare ([] : List Nat)) :=
  ⟨(c7_response_shape_handling [3, 7]).1,
   (c7_response_shape_handling ([] : List Nat)).2.2.2 rfl⟩

-- ===== Auto-logout timer machinery (admin/admin.js 202-279) =====

/-- Embedding of the timer cleanup prologue shared by `performLogout`
(admin.js 206-209) and `setupAutoLogout` (admin.js 256-259):
`if (autoLogoutTimer) { clearTimeout(autoLogoutTimer); autoLogoutTimer = null; }`. -/
def clearTrackedTimer (s : SessState) : SessState :=
  match s.tracked with
  | none => s
  | some h =>
    { s with pending := s.pending.filter (fun p => p.fst != h), tracked := none }

/-- Embedding of `autoLogoutTimer = setTimeout(cb, delay)`
(admin.js 276-278): arm a fresh timer handle and track it. -/
def armTimer (delay : Nat) (s : SessState) : SessState :=
  { s with pending := s.pending ++ [(s.nextHandle, delay)],
           tracked := some s.nextHandle,
           nextHandle := s.nextHandle + 1 }

/-- Embedding of `performLogout` (admin.js 202-220): clear the tracked
timer, remove the token, alert the user with the reason, and navigate to
the login page. -/
def performLogout (reason : JStr) (s : SessState) : SessState :=
  let s1 := clearTrackedTimer s
  let s2 := removeToken s1
  let s3 := { s2 with alerts := s2.alerts ++ [reason ++ jstr ". Please login again."] }
  { s3 with redirects := s3.redirects ++ [jstr "login.html"] }

/-- Embedding of `checkTokenExpiry` (admin.js 227-248): a missing token
(or the "null"/"undefined" literals) yields remaining time 0 with NO
logout; an expired token triggers `performLogout` and yields 0;
otherwise the remaining time is returned unchanged along with the
untouched state. -/
def checkTokenExpiry (parse : JStr → Option JWTPayload) (s : SessState) :
    Nat × SessState :=
  match getToken s with
  | none => (0, s)
  | some token =>
    if token.isEmpty || token == jstr "undefined" || token == jstr "null" then (0, s)
    else if isTokenExpired parse token s.now then
      (0, performLogout (jstr "Session expired") s)
    else ((getTokenRemainingTime parse token s.now).toNat, s)

/-- Embedding of `setupAutoLogout` (admin.js 254-279): clear any tracked
timer, run `checkTokenExpiry`; if the remaining time is 0, return (the
comment says "checkTokenExpiry handles logout"); otherwise arm one timer
for `Math.max(remainingTime - 30000, 0)` milliseconds. -/
def setupAutoLogout (parse : JStr → Option JWTPayload) (s : SessState) : SessState :=
  let s1 := clearTrackedTimer s
  let rs := checkTokenExpiry parse s1
  if rs.fst = 0 then rs.snd
  else armTimer (max (rs.fst - 30000) 0) rs.snd

/-- Clearing the tracked timer leaves the storage cell alone. -/
@[simp]
theorem clearTrackedTimer_storage (s : SessState) :
    (clearTrackedTimer s).storage = s.storage := by
  unfold clearTrackedTimer; cases s.tracked <;> rfl

/-- Clearing the tracked timer leaves the clock alone. -/
@[simp]
theorem clearTrackedTimer_now (s : SessState) :
    (clearTrackedTimer s).now = s.now := by
  unfold clearTrackedTimer; cases s.tracked <;> rfl

/-- Clearing the tracked timer issues no alert. -/
@[simp]
theorem clearTrackedTimer_alerts (s : SessState) :
    (clearTrackedTimer s).alerts = s.alerts := by
  unfold clearTrackedTimer; cases s.tracked <;> rfl

/-- Clearing the tracked timer issues no navigation. -/
@[simp]
theorem clearTrackedTimer_redirects (s : SessState) :
    (clearTrackedTimer s).redirects = s.redirects := by
  unfold clearTrackedTimer; cases s.tracked <;> rfl

/-- Clearing the tracked timer does not consume a handle. -/
@[simp]
theorem clearTrackedTimer_nextHandle (s : SessState) :
    (clearTrackedTimer s).nextHandle = s.nextHandle := by
  unfold clearTrackedTimer; cases s.tracked <;> rfl

/-- After the cleanup prologue nothing is tracked. -/
@[simp]
theorem clearTrackedTimer_tracked (s : SessState) :
    (clearTrackedTimer s).tracked = none := by
  unfold clearTrackedTimer
  cases h : s.tracked
  · exact h
  · rfl

/-- The timer invariant of the spec: every live timer is the tracked
one, at most one timer is live, and the tracked handle is stale-free
(below the fresh-handle counter). -/
def timerInvB (s : SessState) : Bool :=
  s.pending.all (fun p => s.tracked == some p.fst) &&
  decide (s.pending.length ≤ 1) &&
  (match s.tracked with
   | none => true
   | some h => decide (h < s.nextHandle))

/-- Under the timer invariant, the cleanup prologue empties the live
timer set. -/
theorem clearTrackedTimer_pending_nil (s : SessState) (hinv : timerInvB s = true) :
    (clearTrackedTimer s).pending = [] := by
  unfold timerInvB at hinv
  simp only [Bool.and_eq_true, List.all_eq_true, beq_iff_eq, decide_eq_true_eq] at hinv
  obtain ⟨⟨hall, _⟩, _⟩ := hinv
  unfold clearTrackedTimer
  cases htr : s.tracked with
  | none =>
    simp only
    have : s.pending = [] := by
      cases hp : s.pending with
      | nil => rfl
      | cons a l =>
        exfalso
        have := hall a (by rw [hp]; exact List.mem_cons_self a l)
        rw [htr] at this
        exact Option.noConfusion this
    exact this
  | some h =>
    simp only
    rw [List.filter_eq_nil_iff]
    intro p hp
    have hfst := hall p hp
    rw [htr] at hfst
    simp only [Option.some.injEq] at hfst
    simp [hfst]

/-- After `performLogout` the token cell is empty. -/
@[simp]
theorem performLogout_storage (r : JStr) (s : SessState) :
    (performLogout r s).storage = none := by
  simp [performLogout, removeToken]

/-- After `performLogout` exactly one alert has been appended. -/
@[simp]
theorem performLogout_alerts (r : JStr) (s : SessState) :
    (performLogout r s).alerts = s.alerts ++ [r ++ jstr ". Please login again."] := by
  simp [performLogout, removeToken]

/-- After `performLogout` exactly one navigation (to login) was issued. -/
@[simp]
theorem performLogout_redirects (r : JStr) (s : SessState) :
    (performLogout r s).redirects = s.redirects ++ [jstr "login.html"] := by
  simp [performLogout, removeToken]

/-- After `performLogout` no timer is tracked. -/
@[simp]
theorem performLogout_tracked (r : JStr) (s : SessState) :
    (performLogout r s).tracked = none := by
  simp [performLogout, removeToken]

/-- `performLogout` arms nothing: the live set is the cleared one. -/
@[simp]
theorem performLogout_pending (r : JStr) (s : SessState) :
    (performLogout r s).pending = (clearTrackedTimer s).pending := by
  simp [performLogout, removeToken]

/-- `checkTokenExpiry` under the missing-token guard: remaining time 0
and the state untouched — in particular NO logout is performed. -/
theorem checkTokenExpiry_missing (parse : JStr → Option JWTPayload) (s : SessState)
    (hmiss : tokenMissingCheck (getToken s) = true) :
    checkTokenExpiry parse s = (0, s) := by
  unfold checkTokenExpiry
  cases hsto : getToken s with
  | none => rfl
  | some t =>
    rw [hsto] at hmiss
    simp only [tokenMissingCheck] at hmiss
    simp [hmiss]

/-- `checkTokenExpiry` on a present but expired token performs the
logout and reports remaining time 0. -/
theorem checkTokenExpiry_expired (parse : JStr → Option JWTPayload) (s : SessState)
    (token : JStr) (hs : getToken s = some token)
    (hmiss : tokenMissingCheck (getToken s) = false)
    (hexp : isTokenExpired parse token s.now = true) :
    checkTokenExpiry parse s = (0, performLogout (jstr "Session expired") s) := by
  unfold checkTokenExpiry
  rw [hs] at hmiss ⊢
  simp only [tokenMissingCheck] at hmiss
  simp [hmiss, hexp]

/-- `checkTokenExpiry` on a valid unexpired token returns the remaining
time and leaves the state untouched. -/
theorem checkTokenExpiry_valid (parse : JStr → Option JWTPayload) (s : SessState)
    (token : JStr) (hs : getToken s = some token)
    (hmiss : tokenMissingCheck (getToken s) = false)
    (hexp : isTokenExpired parse token s.now = false) :
    checkTokenExpiry parse s =
      ((getTokenRemainingTime parse token s.now).toNat, s) := by
  unfold checkTokenExpiry
  rw [hs] at hmiss ⊢
  simp only [tokenMissingCheck] at hmiss
  simp [hmiss, hexp]

/-- An unexpired token has strictly positive remaining time. -/
theorem remaining_pos_of_not_expired (parse : JStr → Option JWTPayload)
    (token : JStr) (now : Nat)
    (hexp : isTokenExpired parse token now = false) :
    (getTokenRemainingTime parse token now).toNat ≠ 0 := by
  unfold isTokenExpired at hexp
  unfold getTokenRemainingTime
  cases hdec : decodeJWT parse token with
  | none => rw [hdec] at hexp; simp at hexp
  | some payload =>
    rw [hdec] at hexp
    dsimp only at hexp ⊢
    cases hexpf : payload.exp with
    | none => rw [hexpf] at hexp; simp at hexp
    | some e =>
      rw [hexpf] at hexp
      dsimp only at hexp ⊢
      by_cases he : e = 0
      · subst he; simp at hexp
      · rw [if_neg he] at hexp
        simp only [decide_eq_false_iff_not, not_le] at hexp
        simp only [if_neg he]
        omega

/-- A state with nothing tracked is left alone by the cleanup prologue. -/
theorem clearTrackedTimer_of_tracked_none (t : SessState) (h : t.tracked = none) :
    clearTrackedTimer t = t := by
  unfold clearTrackedTimer
  rw [h]

/-- The cleanup prologue is idempotent. -/
@[simp]
theorem clearTrackedTimer_idem (s : SessState) :
    clearTrackedTimer (clearTrackedTimer s) = clearTrackedTimer s :=
  clearTrackedTimer_of_tracked_none _ (clearTrackedTimer_tracked s)

-- ===== Theorems for claims C3 and C4 =====

/-- C3 counterexample: with no stored token (remaining time 0 because
the token is absent), `setupAutoLogout` arms no timer but ALSO performs
no logout: no alert is shown and no redirect to the login page happens,
contradicting the claim that logout is performed immediately. -/
theorem c3_absent_token_counterexample :
    (setupAutoLogout (fun _ => none)
        ⟨none, 0, [], none, 0, [], [], jstr "/admin/dashboard.html"⟩).alerts = [] ∧
    (setupAutoLogout (fun _ => none)
        ⟨none, 0, [], none, 0, [], [], jstr "/admin/dashboard.html"⟩).redirects = [] ∧
    (setupAutoLogout (fun _ => none)
        ⟨none, 0, [], none, 0, [], [], jstr "/admin/dashboard.html"⟩).pending = [] := by
  refine ⟨rfl, rfl, rfl⟩

/-- C3 amended: when the remaining time is 0, `setupAutoLogout` arms no
timer; it performs the immediate logout (clear token, alert, redirect to
login) only in the present-but-expired case.  When the token is absent
(or one of the "null"/"undefined" literals) it returns after merely
clearing any tracked timer — no alert, no redirect, storage untouched. -/
theorem c3_setupAutoLogout_zero_remaining (parse : JStr → Option JWTPayload)
    (s : SessState) :
    (tokenMissingCheck (getToken s) = true →
      setupAutoLogout parse s = clearTrackedTimer s ∧
      (setupAutoLogout parse s).storage = s.storage ∧
      (setupAutoLogout parse s).alerts = s.alerts ∧
      (setupAutoLogout parse s).redirects = s.redirects ∧
      (setupAutoLogout parse s).tracked = none) ∧
    (∀ token, getToken s = some token →
      tokenMissingCheck (getToken s) = false →
      isTokenExpired parse token s.now = true →
      setupAutoLogout parse s =
        performLogout (jstr "Session expired") (clearTrackedTimer s) ∧
      (setupAutoLogout parse s).storage = none ∧
      (setupAutoLogout parse s).alerts =
        s.alerts ++ [jstr "Session expired" ++ jstr ". Please login again."] ∧
      (setupAutoLogout parse s).redirects = s.redirects ++ [jstr "login.html"] ∧
      (setupAutoLogout parse s).tracked = none ∧
      (setupAutoLogout parse s).pending = (clearTrackedTimer s).pending) := by
  constructor
  · intro hmiss
    have h1 : checkTokenExpiry parse (clearTrackedTimer s) = (0, clearTrackedTimer s) := by
      apply checkTokenExpiry_missing
      show tokenMissingCheck (getToken (clearTrackedTimer s)) = true
      rw [show getToken (clearTrackedTimer s) = getToken s from by
        simp [getToken]]
      exact hmiss
    have hmain : setupAutoLogout parse s = clearTrackedTimer s := by
      simp only [setupAutoLogout]
      rw [h1]
      simp
    refine ⟨hmain, ?_, ?_, ?_, ?_⟩ <;> rw [hmain] <;> simp
  · intro token hs hmiss hexp
    have h1 : checkTokenExpiry parse (clearTrackedTimer s) =
        (0, performLogout (jstr "Session expired") (clearTrackedTimer s)) := by
      apply checkTokenExpiry_expired parse (clearTrackedTimer s) token
      · rw [show getToken (clearTrackedTimer s) = getToken s from by
          simp [getToken]]
        exact hs
      · rw [show getToken (clearTrackedTimer s) = getToken s from by
          simp [getToken]]
        exact hmiss
      · rw [clearTrackedTimer_now]
        exact hexp
    have hmain : setupAutoLogout parse s =
        performLogout (jstr "Session expired") (clearTrackedTimer s) := by
      simp only [setupAutoLogout]
      rw [h1]
      simp
    refine ⟨hmain, ?_, ?_, ?_, ?_, ?_⟩ <;> rw [hmain] <;> simp

/-- Concrete instantiation of `c3_setupAutoLogout_zero_remaining`: an
expired token triggers the alert-and-redirect logout with no timer kept;
an absent token merely clears the tracked timer. -/
theorem c3_setupAutoLogout_zero_remaining_witness :
    (setupAutoLogout (fun _ => some ⟨some 10⟩)
        ⟨some (jstr "a.b.c"), 20000, [(0, 99)], some 0, 1, [], [], jstr "/x"⟩).alerts =
      [jstr "Session expired" ++ jstr ". Please login again."] ∧
    (setupAutoLogout (fun _ => some ⟨some 10⟩)
        ⟨some (jstr "a.b.c"), 20000, [(0, 99)], some 0, 1, [], [], jstr "/x"⟩).pending =
      (clearTrackedTimer
        ⟨some (jstr "a.b.c"), 20000, [(0, 99)], some 0, 1, [], [], jstr "/x"⟩).pending ∧
    setupAutoLogout (fun _ => some ⟨some 10⟩)
        ⟨none, 0, [], none, 0, [], [], jstr "/y"⟩ =
      clearTrackedTimer ⟨none, 0, [], none, 0, [], [], jstr "/y"⟩ :=
  ⟨((c3_setupAutoLogout_zero_remaining (fun _ => some ⟨some 10⟩)
      ⟨some (jstr "a.b.c"), 20000, [(0, 99)], some 0, 1, [], [], jstr "/x"⟩).2
      (jstr "a.b.c") rfl (by decide) (by decide)).2.2.1,
   ((c3_setupAutoLogout_zero_remaining (fun _ => some ⟨some 10⟩)
      ⟨some (jstr "a.b.c"), 20000, [(0, 99)], some 0, 1, [], [], jstr "/x"⟩).2
      (jstr "a.b.c") rfl (by decide) (by decide)).2.2.2.2.2,
   ((c3_setupAutoLogout_zero_remaining (fun _ => some ⟨some 10⟩)
      ⟨none, 0, [], none, 0, [], [], jstr "/y"⟩).1 (by decide)).1⟩

/-- C4: for a call to `setupAutoLogout` with a valid unexpired token,
under the timer invariant: the previously tracked timer is cancelled and
after the call exactly one timer is live, armed for
`max(remaining - 30000, 0)` milliseconds on a fresh handle; no timer
with the old handle survives; and the at-most-one-live-timer invariant
is preserved. -/
theorem c4_setupAutoLogout_single_timer (parse : JStr → Option JWTPayload)
    (s : SessState) (token : JStr)
    (hinv : timerInvB s = true)
    (hs : getToken s = some token)
    (hmiss : tokenMissingCheck (getToken s) = false)
    (hexp : isTokenExpired parse token s.now = false) :
    (setupAutoLogout parse s).pending =
      [(s.nextHandle,
        max ((getTokenRemainingTime parse token s.now).toNat - 30000) 0)] ∧
    (setupAutoLogout parse s).tracked = some s.nextHandle ∧
    (setupAutoLogout parse s).nextHandle = s.nextHandle + 1 ∧
    (∀ h, s.tracked = some h →
      ∀ p ∈ (setupAutoLogout parse s).pending, p.fst ≠ h) ∧
    timerInvB (setupAutoLogout parse s) = true := by
  have hget : getToken (clearTrackedTimer s) = getToken s := by simp [getToken]
  have h1 : checkTokenExpiry parse (clearTrackedTimer s) =
      ((getTokenRemainingTime parse token (clearTrackedTimer s).now).toNat,
        clearTrackedTimer s) := by
    apply checkTokenExpiry_valid
    · rw [hget]; exact hs
    · rw [hget]; exact hmiss
    · rw [clearTrackedTimer_now]; exact hexp
  rw [clearTrackedTimer_now] at h1
  have hpos := remaining_pos_of_not_expired parse token s.now hexp
  have hnil := clearTrackedTimer_pending_nil s hinv
  have hmain : setupAutoLogout parse s =
      armTimer (max ((getTokenRemainingTime parse token s.now).toNat - 30000) 0)
        (clearTrackedTimer s) := by
    simp only [setupAutoLogout]
    rw [h1]
    simp [hpos]
  refine ⟨?_, ?_, ?_, ?_, ?_⟩
  · rw [hmain]; simp [armTimer, hnil]
  · rw [hmain]; simp [armTimer]
  · rw [hmain]; simp [armTimer]
  · intro h htr p hp
    rw [hmain] at hp
    simp [armTimer, hnil] at hp
    unfold timerInvB at hinv
    simp only [Bool.and_eq_true, decide_eq_true_eq] at hinv
    rw [htr] at hinv
    have hlt : h < s.nextHandle := by
      simpa using hinv.2
    rw [hp]
    dsimp only
    omega
  · rw [hmain]
    simp [timerInvB, armTimer, hnil]

/-- Concrete instantiation of `c4_setupAutoLogout_single_timer`: with
60 s remaining, the stale timer handle 0 disappears and exactly one
timer is armed, for 30000 ms, on the fresh handle 1. -/
theorem c4_setupAutoLogout_single_timer_witness :
    (setupAutoLogout (fun _ => some ⟨some 100⟩)
        ⟨some (jstr "a.b.c"), 40000, [(0, 5)], some 0, 1, [], [], jstr "/d"⟩).pending =
      [(1, 30000)] ∧
    (setupAutoLogout (fun _ => some ⟨some 100⟩)
        ⟨some (jstr "a.b.c"), 40000, [(0, 5)], some 0, 1, [], [], jstr "/d"⟩).tracked =
      some 1 ∧
    timerInvB (setupAutoLogout (fun _ => some ⟨some 100⟩)
        ⟨some (jstr "a.b.c"), 40000, [(0, 5)], some 0, 1, [], [], jstr "/d"⟩) = true := by
  have h := c4_setupAutoLogout_single_timer (fun _ => some ⟨some 100⟩)
      ⟨some (jstr "a.b.c"), 40000, [(0, 5)], some 0, 1, [], [], jstr "/d"⟩
      (jstr "a.b.c") (by decide) rfl (by decide) (by decide)
  refine ⟨?_, h.2.1, h.2.2.2.2⟩
  rw [h.1]
  decide

-- ===== Content renderer: excerpts (blog/blog.js 19-31) =====

/-- One character step of the regexp `/\s+/g → ' '` replacement: every
whitespace character becomes a plain space. -/
def spaceChar (c : Char) : Char := if jsWs c then ' ' else c

/-- Collapse runs of spaces to a single space (the run-merging part of
the `/\s+/g → ' '` replacement, after `spaceChar` normalisation). -/
def squeezeSpaces : JStr → JStr
  | [] => []
  | [c] => [c]
  | a :: b :: rest =>
    if a = ' ' ∧ b = ' ' then squeezeSpaces (b :: rest)
    else a :: squeezeSpaces (b :: rest)

/-- Embedding of `content.replace(/\s+/g, ' ')` (blog.js 29): each
maximal whitespace run becomes one space. -/
def jsCollapseWs (l : JStr) : JStr := squeezeSpaces (l.map spaceChar)

/-- Right-side half of `String.prototype.trim`. -/
def trimRight (l : JStr) : JStr := (l.reverse.dropWhile jsWs).reverse

/-- Embedding of `String.prototype.trim`: drop whitespace from both
ends. -/
def jsTrim (l : JStr) : JStr := trimRight (l.dropWhile jsWs)

/-- The `cleanContent` intermediate of `getExcerpt` (blog.js 29):
collapse whitespace runs, then trim. -/
def cleanContent (content : JStr) : JStr := jsTrim (jsCollapseWs content)

/-- Embedding of `truncateText` (blog.js 19-22): texts no longer than
`maxLength` pass through; longer ones are hard-cut to `maxLength`
characters with `'...'` appended. -/
def truncateText (text : JStr) (maxLength : Nat) : JStr :=
  if text.length ≤ maxLength then text
  else text.take maxLength ++ jstr "..."

/-- Embedding of `getExcerpt` (blog.js 27-31). -/
def getExcerpt (content : JStr) (maxLength : Nat) : JStr :=
  truncateText (cleanContent content) maxLength

/-- Accumulator pass splitting a string into its maximal
non-whitespace runs (the "words"); `acc` holds the reversed current
word. -/
def wordsAux (acc : JStr) : JStr → List JStr
  | [] => if acc.isEmpty then [] else [acc.reverse]
  | c :: rest =>
    if jsWs c then
      if acc.isEmpty then wordsAux [] rest
      else acc.reverse :: wordsAux [] rest
    else wordsAux (c :: acc) rest

/-- The maximal non-whitespace runs of a string, in order.  This is the
spec-side reading of "collapses all whitespace runs" — the words
between the runs. -/
def wordsOf (l : JStr) : List JStr := wordsAux [] l

/-- Join words with single spaces: the spec-side reading of "collapses
all whitespace runs to single spaces, trims". -/
def joinWords : List JStr → JStr
  | [] => []
  | [w] => w
  | w :: ws => w ++ ' ' :: joinWords ws

/-- The claim-side cleaning function, written from the specification
text: split into whitespace-separated words and rejoin them with single
spaces. -/
def specClean (l : JStr) : JStr := joinWords (wordsOf l)

/-- Dropping a leading whitespace character commutes with `jsTrim`. -/
theorem jsTrim_cons_ws (a : Char) (z : JStr) (ha : jsWs a = true) :
    jsTrim (a :: z) = jsTrim z := by
  simp [jsTrim, List.dropWhile_cons, ha]

/-- A leading space is absorbed by trimming after squeezing. -/
theorem jsTrim_squeeze_cons_space (x : JStr) :
    jsTrim (squeezeSpaces (' ' :: x)) = jsTrim (squeezeSpaces x) := by
  cases x with
  | nil => decide
  | cons y x' =>
    by_cases hy : y = ' '
    · subst hy
      rw [show squeezeSpaces (' ' :: ' ' :: x') = squeezeSpaces (' ' :: x') from by
        simp [squeezeSpaces]]
    · rw [show squeezeSpaces (' ' :: y :: x') = ' ' :: squeezeSpaces (y :: x') from by
        simp [squeezeSpaces, hy]]
      exact jsTrim_cons_ws ' ' _ (by decide)

/-- A space-free chunk passes through `squeezeSpaces` untouched. -/
theorem squeezeSpaces_chunk (u x : JStr) (hu : ∀ a ∈ u, a ≠ ' ') :
    squeezeSpaces (u ++ x) = u ++ squeezeSpaces x := by
  induction u with
  | nil => rfl
  | cons a u' ih =>
    have ha : a ≠ ' ' := hu a (List.mem_cons_self a u')
    have hu' : ∀ b ∈ u', b ≠ ' ' := fun b hb => hu b (List.mem_cons_of_mem a hb)
    cases u' with
    | nil =>
      cases x with
      | nil => rfl
      | cons b x' => simp [squeezeSpaces, ha]
    | cons a' u'' =>
      have hstep : squeezeSpaces (a :: a' :: (u'' ++ x)) =
          a :: squeezeSpaces (a' :: (u'' ++ x)) := by
        simp [squeezeSpaces, ha]
      simp only [List.cons_append]
      rw [hstep]
      have := ih hu'
      simp only [List.cons_append] at this
      rw [this]

/-- A list whose head fails the predicate is untouched by `dropWhile`. -/
theorem dropWhile_of_head_false {p : Char → Bool} (w : JStr)
    (h : ∀ a, w.head? = some a → p a = false) :
    w.dropWhile p = w := by
  cases w with
  | nil => rfl
  | cons a w' => simp [List.dropWhile_cons, h a rfl]

/-- A list all of whose members fail the predicate is untouched by
`dropWhile`. -/
theorem dropWhile_of_all_false {p : Char → Bool} (w : JStr)
    (h : ∀ a ∈ w, p a = false) :
    w.dropWhile p = w := by
  cases w with
  | nil => rfl
  | cons a w' => simp [List.dropWhile_cons, h a (List.mem_cons_self a w')]

/-- The head of a `dropWhile` result fails the predicate. -/
theorem dropWhile_head_false {p : Char → Bool} (l : JStr) (e : Char) (w : JStr)
    (h : l.dropWhile p = e :: w) : p e = false := by
  induction l with
  | nil => exact absurd h (by simp)
  | cons a l' ih =>
    by_cases ha : p a
    · rw [List.dropWhile_cons, if_pos ha] at h
      exact ih h
    · rw [List.dropWhile_cons, if_neg ha] at h
      cases h
      simpa using ha

/-- A whitespace-free chunk passes through `trimRight` untouched on the
left. -/
theorem trimRight_chunk (u z : JStr) (hu : ∀ a ∈ u, jsWs a = false) :
    trimRight (u ++ z) = u ++ trimRight z := by
  unfold trimRight
  rw [List.reverse_append, List.dropWhile_append]
  by_cases hz : (z.reverse.dropWhile jsWs).isEmpty
  · rw [if_pos hz]
    have hempty : z.reverse.dropWhile jsWs = [] := by
      simpa [List.isEmpty_iff] using hz
    rw [hempty]
    have : u.reverse.dropWhile jsWs = u.reverse := by
      apply dropWhile_of_all_false
      intro a ha
      exact hu a (List.mem_reverse.mp ha)
    rw [this]
    simp
  · rw [if_neg hz]
    simp

/-- Squeezing after a space skips the whole following run of spaces. -/
theorem squeezeSpaces_space_run (y : JStr) :
    squeezeSpaces (' ' :: y) =
      ' ' :: squeezeSpaces (y.dropWhile (fun c => c == ' ')) := by
  induction y with
  | nil => rfl
  | cons b y' ih =>
    by_cases hb : b = ' '
    · subst hb
      rw [show squeezeSpaces (' ' :: ' ' :: y') = squeezeSpaces (' ' :: y') from by
        simp [squeezeSpaces]]
      rw [ih]
      simp [List.dropWhile_cons]
    · rw [show squeezeSpaces (' ' :: b :: y') = ' ' :: squeezeSpaces (b :: y') from by
        simp [squeezeSpaces, hb]]
      simp [List.dropWhile_cons, hb]

/-- Space-normalisation commutes with dropping the leading whitespace
run. -/
theorem map_spaceChar_dropWhile (v : JStr) :
    (v.dropWhile jsWs).map spaceChar =
      (v.map spaceChar).dropWhile (fun c => c == ' ') := by
  induction v with
  | nil => rfl
  | cons c v' ih =>
    by_cases hc : jsWs c
    · have hsp : spaceChar c = ' ' := by simp [spaceChar, hc]
      simp [List.dropWhile_cons, hc, hsp, ih]
    · have hsp : spaceChar c = c := by simp [spaceChar, hc]
      have hne : (c == ' ') = false := by
        cases hcc : c == ' '
        · rfl
        · exfalso
          rw [show c = ' ' from by exact beq_iff_eq.mp hcc] at hc
          exact hc (by decide)
      simp [List.dropWhile_cons, hc, hsp, hne]

/-- Whitespace-free characters are fixed by `spaceChar`. -/
theorem map_spaceChar_id (u : JStr) (hu : ∀ a ∈ u, jsWs a = false) :
    u.map spaceChar = u := by
  induction u with
  | nil => rfl
  | cons a u' ih =>
    have ha := hu a (List.mem_cons_self a u')
    simp only [List.map_cons]
    rw [show spaceChar a = a from by simp [spaceChar, ha],
      ih fun b hb => hu b (List.mem_cons_of_mem a hb)]

/-- A whitespace-free character is not a space. -/
theorem ne_space_of_not_ws (a : Char) (ha : jsWs a = false) : a ≠ ' ' := by
  intro h
  rw [h] at ha
  exact absurd ha (by decide)

/-- A leading whitespace-free chunk passes through the whole cleaning
pipeline untouched, with the cleaned remainder attached on the right. -/
theorem cleanContent_word_chunk (u v : JStr) (hne : u ≠ [])
    (hu : ∀ a ∈ u, jsWs a = false) :
    cleanContent (u ++ v) = u ++ trimRight (jsCollapseWs v) := by
  unfold cleanContent jsCollapseWs jsTrim
  rw [List.map_append, map_spaceChar_id u hu,
    squeezeSpaces_chunk u _ (fun a ha => ne_space_of_not_ws a (hu a ha))]
  have hdrop : (u ++ squeezeSpaces (v.map spaceChar)).dropWhile jsWs =
      u ++ squeezeSpaces (v.map spaceChar) := by
    apply dropWhile_of_head_false
    intro a ha
    cases u with
    | nil => exact absurd rfl hne
    | cons b u' =>
      simp only [List.cons_append, List.head?_cons, Option.some.injEq] at ha
      rw [← ha]
      exact hu b (List.mem_cons_self b u')
  rw [hdrop]
  exact trimRight_chunk u _ hu

/-- `trimRight` keeps a list headed by a non-whitespace character
non-empty. -/
theorem trimRight_ne_nil_of_head (e : Char) (t : JStr) (he : jsWs e = false) :
    trimRight (e :: t) ≠ [] := by
  unfold trimRight
  rw [List.reverse_cons, List.dropWhile_append]
  by_cases ht : (t.reverse.dropWhile jsWs).isEmpty
  · rw [if_pos ht]
    simp [List.dropWhile_cons, he]
  · rw [if_neg ht]
    simp only [ne_eq, List.reverse_eq_nil_iff, List.append_eq_nil]
    intro h
    rw [h.1] at ht
    exact ht (by rfl)

/-- `trimRight` commutes with a cons whose tail survives trimming. -/
theorem trimRight_cons_of_ne_nil (a : Char) (t : JStr) (ht : trimRight t ≠ []) :
    trimRight (a :: t) = a :: trimRight t := by
  unfold trimRight at *
  rw [List.reverse_cons, List.dropWhile_append]
  have hne : ¬(t.reverse.dropWhile jsWs).isEmpty := by
    intro h
    apply ht
    rw [List.isEmpty_iff] at h
    rw [h]
    rfl
  rw [if_neg hne]
  simp

/-- Unfolding of `wordsAux` in the in-word state: the current word is
completed by the next maximal non-whitespace run. -/
theorem wordsAux_cons_acc (l : JStr) : ∀ (acc : JStr) (c : Char),
    wordsAux (c :: acc) l =
      ((c :: acc).reverse ++ l.takeWhile (fun d => !jsWs d)) ::
        wordsOf (l.dropWhile (fun d => !jsWs d)) := by
  induction l with
  | nil =>
    intro acc c
    simp [wordsAux, wordsOf]
  | cons d rest ih =>
    intro acc c
    by_cases hd : jsWs d
    · have h1 : wordsAux (c :: acc) (d :: rest) =
          (c :: acc).reverse :: wordsAux [] rest := by
        simp [wordsAux, hd]
      have h2 : wordsOf (d :: rest) = wordsOf rest := by
        simp [wordsOf, wordsAux, hd]
      rw [h1]
      simp only [List.takeWhile_cons, List.dropWhile_cons, hd,
        Bool.not_true, Bool.false_eq_true, if_false]
      rw [h2]
      simp [wordsOf]
    · have h1 : wordsAux (c :: acc) (d :: rest) = wordsAux (d :: c :: acc) rest := by
        simp [wordsAux, hd]
      rw [h1, ih (c :: acc) d]
      simp only [List.takeWhile_cons, List.dropWhile_cons, hd,
        Bool.not_false, if_true]
      simp

/-- `wordsOf` skips a leading whitespace character. -/
theorem wordsOf_cons_ws (d : Char) (l : JStr) (hd : jsWs d = true) :
    wordsOf (d :: l) = wordsOf l := by
  simp [wordsOf, wordsAux, hd]

/-- `wordsOf` on a non-whitespace head: the first word is the maximal
run starting there. -/
theorem wordsOf_cons_nonws (d : Char) (l : JStr) (hd : jsWs d = false) :
    wordsOf (d :: l) =
      (d :: l.takeWhile (fun c => !jsWs c)) ::
        wordsOf (l.dropWhile (fun c => !jsWs c)) := by
  have h1 : wordsOf (d :: l) = wordsAux [d] l := by
    simp [wordsOf, wordsAux, hd]
  rw [h1, wordsAux_cons_acc l [] d]
  simp

/-- Every word produced by `wordsAux` is non-empty. -/
theorem wordsAux_ne_nil (l : JStr) : ∀ (acc : JStr),
    ∀ w ∈ wordsAux acc l, w ≠ [] := by
  induction l with
  | nil =>
    intro acc w hw
    unfold wordsAux at hw
    by_cases hacc : acc.isEmpty
    · rw [if_pos hacc] at hw
      exact absurd hw (List.not_mem_nil w)
    · rw [if_neg hacc] at hw
      rw [List.mem_singleton] at hw
      subst hw
      intro h
      apply hacc
      rw [show acc = [] from by simpa using congrArg List.reverse h]
      rfl
  | cons c rest ih =>
    intro acc w hw
    unfold wordsAux at hw
    by_cases hc : jsWs c
    · rw [if_pos hc] at hw
      by_cases hacc : acc.isEmpty
      · rw [if_pos hacc] at hw
        exact ih [] w hw
      · rw [if_neg hacc] at hw
        rcases List.mem_cons.mp hw with h | h
        · subst h
          intro h
          apply hacc
          rw [show acc = [] from by simpa using congrArg List.reverse h]
          rfl
        · exact ih [] w h
    · rw [if_neg hc] at hw
      exact ih (c :: acc) w hw

/-- `joinWords` of a non-empty word list is non-empty. -/
theorem joinWords_ne_nil (ws : List JStr) (hne : ws ≠ [])
    (hw : ∀ w ∈ ws, w ≠ []) : joinWords ws ≠ [] := by
  cases ws with
  | nil => exact absurd rfl hne
  | cons w ws' =>
    cases ws' with
    | nil =>
      simpa [joinWords] using hw w (List.mem_cons_self w [])
    | cons w' ws'' =>
      simp [joinWords]

/-- `joinWords` unfolding on a cons. -/
theorem joinWords_cons (w : JStr) (ws : List JStr) :
    joinWords (w :: ws) = if ws = [] then w else w ++ ' ' :: joinWords ws := by
  cases ws with
  | nil => simp [joinWords]
  | cons w' ws' => simp [joinWords]

/-- The cleaned form of a whitespace-headed (or empty) remainder,
attached after a word: a single separating space when any word remains,
nothing otherwise. -/
theorem trimRight_collapse_tail (v : JStr)
    (hv : ∀ d, v.head? = some d → jsWs d = true) :
    trimRight (jsCollapseWs v) =
      if cleanContent v = [] then [] else ' ' :: cleanContent v := by
  cases v with
  | nil => simp [jsCollapseWs, squeezeSpaces, trimRight, cleanContent, jsTrim]
  | cons d v' =>
    have hd : jsWs d = true := hv d rfl
    have hsp : spaceChar d = ' ' := by simp [spaceChar, hd]
    have h1 : jsCollapseWs (d :: v') = ' ' :: jsCollapseWs (v'.dropWhile jsWs) := by
      unfold jsCollapseWs
      rw [List.map_cons, hsp, squeezeSpaces_space_run, ← map_spaceChar_dropWhile v']
    cases hwc : v'.dropWhile jsWs with
    | nil =>
      rw [hwc] at h1
      have h3 : cleanContent (d :: v') = [] := by
        unfold cleanContent jsTrim
        rw [h1]
        decide
      rw [h1, h3]
      decide
    | cons e w'' =>
      have he : jsWs e = false := dropWhile_head_false v' e w'' hwc
      rw [hwc] at h1
      have h2 : jsCollapseWs (e :: w'') = e :: squeezeSpaces (w''.map spaceChar) := by
        unfold jsCollapseWs
        rw [List.map_cons, show spaceChar e = e from by simp [spaceChar, he]]
        exact squeezeSpaces_chunk [e] _ (by
          intro a ha
          rw [List.mem_singleton] at ha
          rw [ha]
          exact ne_space_of_not_ws e he)
      rw [h2] at h1
      have hne : trimRight (e :: squeezeSpaces (w''.map spaceChar)) ≠ [] :=
        trimRight_ne_nil_of_head e _ he
      have hclean : cleanContent (d :: v') =
          trimRight (e :: squeezeSpaces (w''.map spaceChar)) := by
        unfold cleanContent jsTrim
        rw [h1, List.dropWhile_cons]
        simp only [show jsWs ' ' = true from by decide, if_true]
        rw [dropWhile_of_head_false _ (by
          intro a ha
          simp only [List.head?_cons, Option.some.injEq] at ha
          rw [← ha]
          exact he)]
      rw [h1, trimRight_cons_of_ne_nil ' ' _ hne, hclean, if_neg hne]

/-- The cleaning pipeline of `getExcerpt` computes exactly the
spec-side description: the whitespace-separated words rejoined with
single spaces (whitespace runs collapsed, ends trimmed). -/
theorem cleanContent_eq_specClean (l : JStr) : cleanContent l = specClean l := by
  suffices H : ∀ n (l : JStr), l.length ≤ n → cleanContent l = specClean l from
    H l.length l le_rfl
  intro n
  induction n with
  | zero =>
    intro l hl
    have : l = [] := List.eq_nil_of_length_eq_zero (Nat.le_zero.mp hl)
    subst this
    rfl
  | succ n ih =>
    intro l hl
    cases l with
    | nil => rfl
    | cons c l' =>
      simp only [List.length_cons, Nat.succ_le_succ_iff] at hl
      by_cases hc : jsWs c
      · have hA : cleanContent (c :: l') = cleanContent l' := by
          unfold cleanContent jsCollapseWs
          rw [List.map_cons, show spaceChar c = ' ' from by simp [spaceChar, hc]]
          exact jsTrim_squeeze_cons_space _
        rw [hA]
        unfold specClean
        rw [wordsOf_cons_ws c l' hc]
        exact ih l' hl
      · have hcf : jsWs c = false := by simpa using hc
        have hdecomp : c :: l' =
            (c :: l'.takeWhile (fun d => !jsWs d)) ++
              l'.dropWhile (fun d => !jsWs d) := by
          rw [List.cons_append, List.takeWhile_append_dropWhile]
        have hu : ∀ a ∈ (c :: l'.takeWhile (fun d => !jsWs d)), jsWs a = false := by
          intro a ha
          rcases List.mem_cons.mp ha with h | h
          · rw [h]; exact hcf
          · have := List.mem_takeWhile_imp h
            simpa using this
        have hv : ∀ d, (l'.dropWhile (fun d => !jsWs d)).head? = some d →
            jsWs d = true := by
          intro d hd
          cases hvc : l'.dropWhile (fun d => !jsWs d) with
          | nil => rw [hvc] at hd; exact absurd hd (by simp)
          | cons e w =>
            rw [hvc] at hd
            simp only [List.head?_cons, Option.some.injEq] at hd
            rw [← hd]
            have : (!jsWs e) = false := dropWhile_head_false l' e w hvc
            simpa using this
        have hvlen : (l'.dropWhile (fun d => !jsWs d)).length ≤ n :=
          le_trans (List.Sublist.length_le (List.dropWhile_sublist _)) hl
        have hIH : cleanContent (l'.dropWhile (fun d => !jsWs d)) =
            specClean (l'.dropWhile (fun d => !jsWs d)) := ih _ hvlen
        rw [show cleanContent (c :: l') =
            cleanContent ((c :: l'.takeWhile (fun d => !jsWs d)) ++
              l'.dropWhile (fun d => !jsWs d)) from by rw [← hdecomp]]
        rw [cleanContent_word_chunk _ _ (by simp) hu]
        rw [trimRight_collapse_tail _ hv]
        unfold specClean
        rw [wordsOf_cons_nonws c l' hcf, joinWords_cons]
        by_cases hwv : wordsOf (l'.dropWhile (fun d => !jsWs d)) = []
        · rw [if_pos hwv]
          have hnil : cleanContent (l'.dropWhile (fun d => !jsWs d)) = [] := by
            rw [hIH]
            unfold specClean
            rw [hwv]
            rfl
          rw [if_pos hnil]
          simp
        · rw [if_neg hwv]
          have hjoin_ne : joinWords (wordsOf (l'.dropWhile (fun d => !jsWs d))) ≠ [] :=
            joinWords_ne_nil _ hwv (fun w hw => wordsAux_ne_nil _ [] w hw)
          have hnn : cleanContent (l'.dropWhile (fun d => !jsWs d)) ≠ [] := by
            rw [hIH]
            exact hjoin_ne
          rw [if_neg hnn, hIH]
          rfl

-- ===== Theorems for claim C8 =====

/-- C8 counterexample: the input "a  b" has length 4, at most the
(default) limit of 150, yet `getExcerpt` does not return it unchanged —
the whitespace run is collapsed first, so the result is "a b". -/
theorem c8_unchanged_input_counterexample :
    (jstr "a  b").length ≤ 150 ∧
    getExcerpt (jstr "a  b") 150 ≠ jstr "a  b" ∧
    getExcerpt (jstr "a  b") 150 = jstr "a b" := by
  refine ⟨by decide, by decide, by decide⟩

/-- C8 amended: `getExcerpt` first cleans the content — provably equal
to splitting into whitespace-separated words and rejoining with single
spaces (runs collapsed, ends trimmed) — then, when the CLEANED string is
longer than `maxLen`, hard-cuts it to its first `maxLen` characters
followed by an ellipsis; when the cleaned string's length is at most
`maxLen` the result is the cleaned string itself, with no ellipsis (not
the raw input, which may have had its whitespace collapsed).  In
particular `getExcerpt "a  b\n\nc" 3 = "a b" ++ "..."`. -/
theorem c8_getExcerpt_spec (content : JStr) (maxLen : Nat) :
    cleanContent content = specClean content ∧
    ((cleanContent content).length > maxLen →
      getExcerpt content maxLen =
        (cleanContent content).take maxLen ++ jstr "...") ∧
    ((cleanContent content).length ≤ maxLen →
      getExcerpt content maxLen = cleanContent content) ∧
    getExcerpt (jstr "a  b\n\nc") 3 = jstr "a b" ++ jstr "..." := by
  refine ⟨cleanContent_eq_specClean content, ?_, ?_, by decide⟩
  · intro hlong
    unfold getExcerpt truncateText
    rw [if_neg (by omega)]
  · intro hshort
    unfold getExcerpt truncateText
    rw [if_pos hshort]

/-- Concrete instantiation of `c8_getExcerpt_spec`: a long input is
hard-cut with an ellipsis, a short one comes back cleaned with none. -/
theorem c8_getExcerpt_spec_witness :
    getExcerpt (jstr "a  b\n\nc") 3 =
      (cleanContent (jstr "a  b\n\nc")).take 3 ++ jstr "..." ∧
    getExcerpt (jstr "hi there") 100 = cleanContent (jstr "hi there") :=
  ⟨(c8_getExcerpt_spec (jstr "a  b\n\nc") 3).2.1 (by decide),
   (c8_getExcerpt_spec (jstr "hi there") 100).2.2.1 (by decide)⟩

-- ===== Content renderer: formatContent (blog/blog.js 44-76) =====

/-- Embedding of `content.split('\n\n')` (blog.js 46): split at each
non-overlapping occurrence of a double newline, left to right. -/
def splitDoubleNl : JStr → List JStr
  | [] => [[]]
  | [c] => [[c]]
  | a :: b :: rest =>
    if a = '\n' ∧ b = '\n' then [] :: splitDoubleNl rest
    else
      match splitDoubleNl (b :: rest) with
      | [] => [[a]]
      | blk :: bs => (a :: blk) :: bs

/-- Whether a double newline occurs anywhere in the string. -/
def hasDoubleNl : JStr → Bool
  | [] => false
  | [_] => false
  | a :: b :: rest => (a == '\n' && b == '\n') || hasDoubleNl (b :: rest)

/-- Characters of a line up to (excluding) the first newline — the
behaviour of the final `(.*)` group of the heading regexp. -/
def takeUntilNl (l : JStr) : JStr := l.takeWhile (fun c => c != '\n')

/-- Length of the leading `#` run — the `(#+)` group of the heading
regexp `/^(#+)\s*(.*)/` (blog.js 52). -/
def headingLevel (block : JStr) : Nat :=
  (block.takeWhile (fun c => c == '#')).length

/-- The `(.*)` group of the heading regexp: after the `#` run the
greedy `\s*` eats all whitespace (newlines included), then `.*` takes
the rest of that line. -/
def headingText (block : JStr) : JStr :=
  takeUntilNl ((block.dropWhile (fun c => c == '#')).dropWhile jsWs)

/-- The opening tag `<h$n>` of the rendered heading. -/
def headingOpen (n : Nat) : JStr := jstr "<h" ++ [Nat.digitChar n] ++ jstr ">"

/-- The closing tag `</h$n>` of the rendered heading. -/
def headingClose (n : Nat) : JStr := jstr "</h" ++ [Nat.digitChar n] ++ jstr ">"

/-- Embedding of `paragraph.replace(/^>\s*/, '')` (blog.js 62): one
leading `>` and the whitespace run after it are removed. -/
def dropQuote (block : JStr) : JStr :=
  if block.head? == some '>' then block.tail.dropWhile jsWs else block

/-- Embedding of `paragraph.replace(/```/g, '')` (blog.js 68): delete
every non-overlapping triple-backtick occurrence, left to right. -/
def stripTicks : JStr → JStr
  | [] => []
  | [a] => [a]
  | [a, b] => [a, b]
  | a :: b :: c :: rest =>
    if a = tickChar ∧ b = tickChar ∧ c = tickChar then stripTicks rest
    else a :: stripTicks (b :: c :: rest)

/-- Embedding of `paragraph.replace(/\n/g, '<br>')` (blog.js 73). -/
def replaceNlBr : JStr → JStr
  | [] => []
  | c :: rest => (if c = '\n' then jstr "<br>" else [c]) ++ replaceNlBr rest

/-- Embedding of the per-block mapper of `formatContent`
(blog.js 49-74): heading when the block starts with `#` (level capped
at `h6`), blockquote when it starts with `>`, preformatted code when it
starts with a triple backtick, else a paragraph with newlines turned
into `<br>`. -/
def formatBlock (block : JStr) : JStr :=
  if block.head? == some '#' then
    headingOpen (min (headingLevel block + 1) 6) ++ headingText block ++
      headingClose (min (headingLevel block + 1) 6)
  else if block.head? == some '>' then
    jstr "<blockquote>" ++ dropQuote block ++ jstr "</blockquote>"
  else if startsWithL block (jstr "```") then
    jstr "<pre><code>" ++ jsTrim (stripTicks block) ++ jstr "</code></pre>"
  else
    jstr "<p>" ++ replaceNlBr block ++ jstr "</p>"

/-- Embedding of `formatContent` (blog.js 44-76): split on double
newlines, keep blocks whose trim is non-empty, map each block, and
concatenate in order. -/
def formatContent (content : JStr) : JStr :=
  List.flatten
    (((splitDoubleNl content).filter (fun p => !(jsTrim p).isEmpty)).map formatBlock)

/-- A string without a double newline is a single block. -/
theorem splitDoubleNl_no_sep (A : JStr) (h : hasDoubleNl A = false) :
    splitDoubleNl A = [A] := by
  induction A with
  | nil => rfl
  | cons a A' ih =>
    cases A' with
    | nil => rfl
    | cons b rest =>
      rw [show hasDoubleNl (a :: b :: rest) =
        ((a == '\n' && b == '\n') || hasDoubleNl (b :: rest)) from rfl] at h
      have h1 : (a == '\n' && b == '\n') = false := (Bool.or_eq_false_iff.mp h).1
      have h2 : hasDoubleNl (b :: rest) = false := (Bool.or_eq_false_iff.mp h).2
      have hcond : ¬(a = '\n' ∧ b = '\n') := by
        rintro ⟨ha, hb⟩
        subst ha; subst hb
        simp at h1
      rw [show splitDoubleNl (a :: b :: rest) =
        (if a = '\n' ∧ b = '\n' then [] :: splitDoubleNl rest
         else
          match splitDoubleNl (b :: rest) with
          | [] => [[a]]
          | blk :: bs => (a :: blk) :: bs) from rfl]
      rw [if_neg hcond, ih h2]

/-- Splitting at an explicit double-newline separator after a block
that contains none and does not end in a newline. -/
theorem splitDoubleNl_append (B : JStr) : ∀ (A : JStr), hasDoubleNl A = false →
    A.getLast? ≠ some '\n' →
    splitDoubleNl (A ++ '\n' :: '\n' :: B) = A :: splitDoubleNl B := by
  intro A
  induction A with
  | nil =>
    intro _ _
    simp [splitDoubleNl]
  | cons a A' ih =>
    intro h hlast
    cases A' with
    | nil =>
      have ha : a ≠ '\n' := by
        intro hh
        apply hlast
        rw [hh]
        rfl
      rw [show ([a] : JStr) ++ '\n' :: '\n' :: B = a :: '\n' :: '\n' :: B from rfl]
      rw [show splitDoubleNl (a :: '\n' :: '\n' :: B) =
        (if a = '\n' ∧ '\n' = '\n' then [] :: splitDoubleNl ('\n' :: B)
         else
          match splitDoubleNl ('\n' :: '\n' :: B) with
          | [] => [[a]]
          | blk :: bs => (a :: blk) :: bs) from rfl]
      rw [if_neg (by rintro ⟨h1, _⟩; exact ha h1)]
      rw [show splitDoubleNl ('\n' :: '\n' :: B) = [] :: splitDoubleNl B from by
        simp [splitDoubleNl]]
    | cons b A'' =>
      rw [show hasDoubleNl (a :: b :: A'') =
        ((a == '\n' && b == '\n') || hasDoubleNl (b :: A'')) from rfl] at h
      have h1 : (a == '\n' && b == '\n') = false := (Bool.or_eq_false_iff.mp h).1
      have h2 : hasDoubleNl (b :: A'') = false := (Bool.or_eq_false_iff.mp h).2
      have hlast' : (b :: A'').getLast? ≠ some '\n' := by
        rw [List.getLast?_cons_cons] at hlast
        exact hlast
      have hcond : ¬(a = '\n' ∧ b = '\n') := by
        rintro ⟨x, y⟩
        subst x; subst y
        simp at h1
      rw [show (a :: b :: A'') ++ '\n' :: '\n' :: B =
        a :: b :: (A'' ++ '\n' :: '\n' :: B) from rfl]
      rw [show splitDoubleNl (a :: b :: (A'' ++ '\n' :: '\n' :: B)) =
        (if a = '\n' ∧ b = '\n' then [] :: splitDoubleNl (A'' ++ '\n' :: '\n' :: B)
         else
          match splitDoubleNl (b :: (A'' ++ '\n' :: '\n' :: B)) with
          | [] => [[a]]
          | blk :: bs => (a :: blk) :: bs) from rfl]
      rw [if_neg hcond]
      have hih := ih h2 hlast'
      rw [show (b :: A'') ++ '\n' :: '\n' :: B =
        b :: (A'' ++ '\n' :: '\n' :: B) from rfl] at hih
      rw [hih]

/-- A list all of whose members satisfy the predicate is untouched by
`takeWhile`. -/
theorem takeWhile_all_true {p : Char → Bool} (l : JStr)
    (h : ∀ a ∈ l, p a = true) : l.takeWhile p = l := by
  induction l with
  | nil => rfl
  | cons a l' ih =>
    rw [List.takeWhile_cons, if_pos (h a (List.mem_cons_self a l'))]
    rw [ih fun b hb => h b (List.mem_cons_of_mem a hb)]

/-- The `(#+)` group captures exactly the replicated `#` run. -/
theorem takeWhile_hash_replicate (n : Nat) (text : JStr) :
    (List.replicate (n + 1) '#' ++ ' ' :: text).takeWhile (fun c => c == '#') =
      List.replicate (n + 1) '#' := by
  induction n with
  | zero => simp [List.replicate, List.takeWhile_cons]
  | succ n ih =>
    rw [List.replicate_succ]
    simp only [List.cons_append, List.takeWhile_cons]
    rw [if_pos (by decide)]
    rw [ih]

/-- Dropping the `#` run of a replicated heading marker. -/
theorem dropWhile_hash_replicate (n : Nat) (text : JStr) :
    (List.replicate (n + 1) '#' ++ ' ' :: text).dropWhile (fun c => c == '#') =
      ' ' :: text := by
  induction n with
  | zero => simp [List.replicate, List.dropWhile_cons]
  | succ n ih =>
    rw [List.replicate_succ]
    simp only [List.cons_append, List.dropWhile_cons]
    rw [if_pos (by decide)]
    exact ih

/-- Blocks are rendered independently and concatenated in order: a
double-newline separator after a separator-free block splits the
rendering. -/
theorem formatContent_append_block (A B : JStr) (hA : hasDoubleNl A = false)
    (hlast : A.getLast? ≠ some '\n') :
    formatContent (A ++ jstr "\n\n" ++ B) = formatContent A ++ formatContent B := by
  have hsep : A ++ jstr "\n\n" ++ B = A ++ '\n' :: '\n' :: B := by
    rw [show jstr "\n\n" = ['\n', '\n'] from rfl]
    simp
  rw [hsep]
  unfold formatContent
  rw [splitDoubleNl_append B A hA hlast, splitDoubleNl_no_sep A hA]
  rw [List.filter_cons]
  by_cases hPA : (!(jsTrim A).isEmpty) = true
  · rw [if_pos hPA]
    simp [List.filter_cons, hPA]
  · rw [if_neg hPA]
    simp only [Bool.not_eq_true] at hPA
    simp [List.filter_cons, hPA]

/-- A block opening with a run of `n + 1` heading markers followed by a
space and single-line text renders as a heading of level
`min (n + 2) 6` around that text. -/
theorem formatBlock_heading (n : Nat) (text : JStr)
    (hnl : text.all (fun a => a != '\n') = true)
    (hhead : (text.head?.all fun d => !jsWs d) = true) :
    formatBlock (List.replicate (n + 1) '#' ++ ' ' :: text) =
      headingOpen (min (n + 2) 6) ++ text ++ headingClose (min (n + 2) 6) := by
  have hblock_head : (List.replicate (n + 1) '#' ++ ' ' :: text).head? = some '#' := by
    rw [List.replicate_succ]
    rfl
  have hlevel : headingLevel (List.replicate (n + 1) '#' ++ ' ' :: text) = n + 1 := by
    unfold headingLevel
    rw [takeWhile_hash_replicate]
    exact List.length_replicate (n + 1) '#'
  have htext : headingText (List.replicate (n + 1) '#' ++ ' ' :: text) = text := by
    unfold headingText
    rw [dropWhile_hash_replicate, List.dropWhile_cons,
      if_pos (show jsWs ' ' = true from by decide)]
    rw [dropWhile_of_head_false text (by
      intro a ha
      cases text with
      | nil => exact absurd ha (by simp)
      | cons t ts =>
        simp only [List.head?_cons, Option.some.injEq] at ha
        rw [← ha]
        simpa using hhead)]
    unfold takeUntilNl
    apply takeWhile_all_true
    intro a ha
    exact List.all_eq_true.mp hnl a ha
  unfold formatBlock
  rw [hblock_head]
  simp only [beq_self_eq_true, if_true]
  rw [hlevel, htext]

/-- A block opening with `>` renders as a blockquote of the rest with
its leading whitespace stripped. -/
theorem formatBlock_blockquote (text : JStr) :
    formatBlock ('>' :: text) =
      jstr "<blockquote>" ++ text.dropWhile jsWs ++ jstr "</blockquote>" := by
  unfold formatBlock dropQuote
  simp

/-- A block opening with a triple backtick renders as a preformatted
code block: all triple backticks deleted, the result trimmed. -/
theorem formatBlock_code (text : JStr) :
    formatBlock (jstr "```" ++ text) =
      jstr "<pre><code>" ++ jsTrim (stripTicks text) ++ jstr "</code></pre>" := by
  rw [show jstr "```" = [tickChar, tickChar, tickChar] from rfl]
  rw [show [tickChar, tickChar, tickChar] ++ text =
    tickChar :: tickChar :: tickChar :: text from rfl]
  unfold formatBlock
  have h1 : ((tickChar :: tickChar :: tickChar :: text).head? == some '#') = false := by
    rfl
  have h2 : ((tickChar :: tickChar :: tickChar :: text).head? == some '>') = false := by
    rfl
  have h3 : startsWithL (tickChar :: tickChar :: tickChar :: text)
      (jstr "```") = true := by
    rw [show jstr "```" = [tickChar, tickChar, tickChar] from rfl]
    simp [startsWithL]
  rw [h1, h2, h3]
  have h4 : stripTicks (tickChar :: tickChar :: tickChar :: text) = stripTicks text := by
    rw [show stripTicks (tickChar :: tickChar :: tickChar :: text) =
      (if tickChar = tickChar ∧ tickChar = tickChar ∧ tickChar = tickChar
       then stripTicks text
       else tickChar :: stripTicks (tickChar :: tickChar :: text)) from rfl]
    simp
  simp only [Bool.false_eq_true, if_false, if_true, h4]

/-- Any other block renders as a paragraph with internal newlines
converted to `<br>`. -/
theorem formatBlock_paragraph (block : JStr) (c : Char)
    (hhead : block.head? = some c) (hc1 : c ≠ '#') (hc2 : c ≠ '>')
    (hticks : startsWithL block (jstr "```") = false) :
    formatBlock block = jstr "<p>" ++ replaceNlBr block ++ jstr "</p>" := by
  unfold formatBlock
  rw [hhead]
  rw [show ((some c == some '#') : Bool) = false from by
    simp [hc1]]
  rw [show ((some c == some '>') : Bool) = false from by
    simp [hc2]]
  rw [hticks]
  simp

-- ===== Theorem for claim C9 =====

/-- C9: `formatContent` splits on blank lines (double newlines) and
maps the blocks in order with no reordering — rendering distributes
over a double-newline separator; a leading run of `n` `#` characters
becomes a heading of level `min (n + 1) 6` around the line text; a
leading `>` becomes a blockquote with the marker and following
whitespace stripped; a triple-backtick block becomes a preformatted
code block with all backtick markers stripped and trimmed; any other
block becomes a paragraph whose internal newlines become `<br>` breaks;
and `formatContent "# Title\n\nplain text"` is a heading followed by a
paragraph. -/
theorem c9_formatContent_spec :
    (∀ A B : JStr, hasDoubleNl A = false → A.getLast? ≠ some '\n' →
      formatContent (A ++ jstr "\n\n" ++ B) =
        formatContent A ++ formatContent B) ∧
    (∀ (n : Nat) (text : JStr), text.all (fun a => a != '\n') = true →
      (text.head?.all fun d => !jsWs d) = true →
      formatBlock (List.replicate (n + 1) '#' ++ ' ' :: text) =
        headingOpen (min (n + 2) 6) ++ text ++ headingClose (min (n + 2) 6)) ∧
    (∀ text : JStr, formatBlock ('>' :: text) =
      jstr "<blockquote>" ++ text.dropWhile jsWs ++ jstr "</blockquote>") ∧
    (∀ text : JStr, formatBlock (jstr "```" ++ text) =
      jstr "<pre><code>" ++ jsTrim (stripTicks text) ++ jstr "</code></pre>") ∧
    (∀ (block : JStr) (c : Char), block.head? = some c → c ≠ '#' → c ≠ '>' →
      startsWithL block (jstr "```") = false →
      formatBlock block = jstr "<p>" ++ replaceNlBr block ++ jstr "</p>") ∧
    formatContent (jstr "# Title\n\nplain text") =
      jstr "<h2>Title</h2><p>plain text</p>" :=
  ⟨formatContent_append_block, formatBlock_heading, formatBlock_blockquote,
   formatBlock_code, formatBlock_paragraph, by decide⟩

/-- Concrete instantiation of `c9_formatContent_spec` at each
hypothesis-bearing conjunct. -/
theorem c9_formatContent_spec_witness :
    formatContent (jstr "x" ++ jstr "\n\n" ++ jstr "y") =
      formatContent (jstr "x") ++ formatContent (jstr "y") ∧
    formatBlock (List.replicate 1 '#' ++ ' ' :: jstr "Hi") =
      headingOpen (min 2 6) ++ jstr "Hi" ++ headingClose (min 2 6) ∧
    formatBlock (jstr "hello\nworld") =
      jstr "<p>" ++ replaceNlBr (jstr "hello\nworld") ++ jstr "</p>" :=
  ⟨c9_formatContent_spec.1 (jstr "x") (jstr "y") (by decide) (by decide),
   c9_formatContent_spec.2.1 0 (jstr "Hi") (by decide) (by decide),
   c9_formatContent_spec.2.2.2.2.1 (jstr "hello\nworld") 'h' rfl (by decide)
     (by decide) (by decide)⟩
